import Mathlib

/-
  Verification of the powerlifting analytics pipeline.

  Shallow embedding of the data-cleaning / classification pipeline
  (src/data-processing/data_processor.py, src/data-processing/config.py,
  src/terraform/lambda_function.py) and of the query engines
  (src/api/lambda_function.py, src/api/main.py).

  Numeric values (pandas floats) are embedded as rationals; nullable fields
  as Option; calls into numpy (np.percentile, np.histogram) are embedded by
  their documented semantics (default "linear" interpolation, equal-width
  bins over the data range).
-/

set_option maxRecDepth 8000

namespace StrengthCheck

/-! ## Configuration (src/data-processing/config.py, duplicated in
src/terraform/lambda_function.py) -/

/-- Minimum total to be considered valid (config.py MIN_TOTAL_KG). -/
def MIN_TOTAL_KG : Rat := 100

/-- Maximum reasonable bodyweight (config.py MAX_BODYWEIGHT_KG). -/
def MAX_BODYWEIGHT_KG : Rat := 200

/-- Minimum reasonable bodyweight (config.py MIN_BODYWEIGHT_KG). -/
def MIN_BODYWEIGHT_KG : Rat := 40

/-- Equipment categories (config.py EQUIPMENT_MAP), an identity mapping on
four known labels; association-list order follows the Python dict. -/
def EQUIPMENT_MAP : List (String × String) :=
  [("Raw", "Raw"), ("Wraps", "Wraps"),
   ("Single-ply", "Single-ply"), ("Multi-ply", "Multi-ply")]

/-- Male weight-class thresholds in kg (config.py WEIGHT_CLASSES_M);
999 is the open-class sentinel. -/
def WEIGHT_CLASSES_M : List Rat := [59, 66, 74, 83, 93, 105, 120, 999]

/-- Female weight-class thresholds in kg (config.py WEIGHT_CLASSES_F);
999 is the open-class sentinel. -/
def WEIGHT_CLASSES_F : List Rat := [47, 52, 57, 63, 72, 84, 999]

/-- Age-division table (config.py AGE_DIVISIONS): name with inclusive
(min, max) bounds, in Python dict insertion order — "Open" first. -/
def AGE_DIVISIONS : List (String × Rat × Rat) :=
  [("Open", 0, 999), ("Sub-Junior", 13, 18), ("Junior", 19, 23),
   ("Masters 1", 40, 49), ("Masters 2", 50, 59), ("Masters 3", 60, 69),
   ("Masters 4", 70, 999)]

/-! ## Classifier -/

/-- data_processor.py `PowerliftingDataProcessor._get_age_division`:
disjoint contiguous bands with an explicit Youth band below 14; a missing
age (pandas NaN) yields "Open". -/
def getAgeDivision (age : Option Rat) : String :=
  match age with
  | none => "Open"
  | some a =>
    if a < 14 then "Youth"
    else if 14 ≤ a ∧ a ≤ 18 then "Sub-Junior"
    else if 19 ≤ a ∧ a ≤ 23 then "Junior"
    else if 24 ≤ a ∧ a ≤ 39 then "Open"
    else if 40 ≤ a ∧ a ≤ 49 then "Masters 1"
    else if 50 ≤ a ∧ a ≤ 59 then "Masters 2"
    else if 60 ≤ a ∧ a ≤ 69 then "Masters 3"
    else "Masters 4"

/-- terraform/lambda_function.py `get_age_division`: iterate the
AGE_DIVISIONS table in insertion order and return the first division whose
inclusive range contains the age, falling back to "Open". -/
def getAgeDivisionTf (age : Option Rat) : String :=
  match age with
  | none => "Open"
  | some a =>
    match AGE_DIVISIONS.find? (fun d => decide (d.2.1 ≤ a) && decide (a ≤ d.2.2)) with
    | some d => d.1
    | none => "Open"

/-- data_processor.py `PowerliftingDataProcessor._get_weight_class`:
select the threshold list for the sex (the female list for any non-"M"
sex, as in the source), walk it ascending and return the first threshold
at or above the bodyweight; the 999 sentinel renders as
"<previous-threshold>+", and a bodyweight above every threshold falls back
to the heaviest open class (second-to-last threshold, rendered "+"). -/
def getWeightClass (bodyweight : Rat) (sex : String) : String :=
  let wcs := if sex = "M" then WEIGHT_CLASSES_M else WEIGHT_CLASSES_F
  match wcs.find? (fun wc => decide (bodyweight ≤ wc)) with
  | some wc =>
      if wc = 999 then toString (wcs.getD (wcs.indexOf wc - 1) 0) ++ "+"
      else toString wc
  | none => toString (wcs.getD (wcs.length - 2) 0) ++ "+"

/-! ## Percentile engine (numpy model) -/

/-- Linear-interpolation percentile of an already sorted list, the
documented default ("linear") method of numpy percentile:
rank = q/100*(n-1), result = v[floor(rank)] +
(rank - floor(rank)) * (v[ceil(rank)] - v[floor(rank)]). -/
def percentileOfSorted (v : List Rat) (q : Rat) : Rat :=
  let rank := q / 100 * ((v.length : Rat) - 1)
  let vlo := v.getD (⌊rank⌋).toNat 0
  let vhi := v.getD (⌈rank⌉).toNat 0
  vlo + (rank - (⌊rank⌋ : Rat)) * (vhi - vlo)

/-- numpy percentile on unsorted data: sort ascending, then interpolate. -/
def npPercentile (data : List Rat) (q : Rat) : Rat :=
  percentileOfSorted (data.insertionSort (· ≤ ·)) q

/-- The 99-element percentile curve for p = 1..99
(np.percentile(data, range(1, 100)) in both percentile generators). -/
def percentiles1to99 (data : List Rat) : List Rat :=
  (List.range 99).map (fun i : Nat => npPercentile data ((i : Rat) + 1))

/-! ## Data model -/

/-- An untyped input row; any field may be missing (pandas NaN). -/
structure RawRecord where
  sex : Option String
  equipment : Option String
  bodyweightKg : Option Rat
  squatKg : Option Rat
  benchKg : Option Rat
  deadliftKg : Option Rat
  totalKg : Option Rat
  tested : Option String
  age : Option Rat
  date : Option String

/-- A cleaned, enriched record as produced by `load_and_clean_data`
(plus the year column added at database-build time). The tested field is
Option because pandas map sends unmapped source values to NaN. -/
structure CanonicalRecord where
  sex : String
  equipment : String
  bodyweightKg : Rat
  weightClass : String
  ageDiv : String
  squatKg : Rat
  benchKg : Rat
  deadliftKg : Rat
  totalKg : Rat
  tested : Option String
  year : Option Int

/-! ## Cleaner -/

/-- The tested normalization of load_and_clean_data:
`fillna('No').map({'Yes': 'Tested', 'No': 'Untested'})`. pandas `Series.map`
with a dict sends any key outside the dict to NaN, modelled as `none`. -/
def testedNorm (tested : Option String) : Option String :=
  let filled := tested.getD "No"
  if filled = "Yes" then some "Tested"
  else if filled = "No" then some "Untested"
  else none

/-- Year derivation at database-build time (create_database.py):
`int(str(date)[:4])` when that parses, else NULL. -/
def yearFromDate (date : Option String) : Option Int :=
  match date with
  | none => none
  | some d => (d.take 4).toInt?

/-- One record through the cleaning filter and enrichment steps of
`PowerliftingDataProcessor.load_and_clean_data`: keep the row only when at
least one of the three lifts is present, bodyweight is present and inside
[MIN_BODYWEIGHT_KG, MAX_BODYWEIGHT_KG], total is present and at least
MIN_TOTAL_KG, sex is "M" or "F", and equipment is a key of EQUIPMENT_MAP;
then default missing lifts to 0, map equipment through EQUIPMENT_MAP,
default a missing age to 25, classify, and normalize the tested flag. -/
def cleanRecord (r : RawRecord) : Option CanonicalRecord :=
  if (r.squatKg.isSome || r.benchKg.isSome || r.deadliftKg.isSome)
      && r.bodyweightKg.isSome
      && decide (MIN_BODYWEIGHT_KG ≤ r.bodyweightKg.getD 0)
      && decide (r.bodyweightKg.getD 0 ≤ MAX_BODYWEIGHT_KG)
      && r.totalKg.isSome && decide (MIN_TOTAL_KG ≤ r.totalKg.getD 0)
      && (r.sex == some "M" || r.sex == some "F")
      && (EQUIPMENT_MAP.lookup (r.equipment.getD "")).isSome then
    some {
      sex := r.sex.getD ""
      equipment := (EQUIPMENT_MAP.lookup (r.equipment.getD "")).getD ""
      bodyweightKg := r.bodyweightKg.getD 0
      weightClass := getWeightClass (r.bodyweightKg.getD 0) (r.sex.getD "")
      ageDiv := getAgeDivision (some (r.age.getD 25))
      squatKg := r.squatKg.getD 0
      benchKg := r.benchKg.getD 0
      deadliftKg := r.deadliftKg.getD 0
      totalKg := r.totalKg.getD 0
      tested := testedNorm r.tested
      year := yearFromDate r.date }
  else none

/-! ## Query façade and cohort selection (src/api/lambda_function.py) -/

/-- A row of the lifts table (create_database.py schema); the batch
generator's cleaned DataFrame rows have the same shape. -/
structure DbRecord where
  sex : String
  equipment : String
  bodyweight_kg : Rat
  weight_class : String
  age_div : String
  squat_kg : Rat
  bench_kg : Rat
  deadlift_kg : Rat
  total_kg : Rat
  tested : String
  country : Option String
  state : Option String
  federation : Option String
  year : Option Int
  meet_name : Option String

/-- The filter dict parsed from query parameters; absent keys are none. -/
structure LambdaFilters where
  sex : Option String := none
  equipment : Option String := none
  weight_class : Option String := none
  age_div : Option String := none
  tested : Option String := none
  country : Option String := none
  state : Option String := none
  year : Option String := none
  federation : Option String := none

/-- Python truthiness test `if value and value != 'Any'` applied to a
filter value: an absent key, an empty string and the sentinel "Any" leave
the dimension unconstrained. -/
def filterActive (v : Option String) : Bool :=
  match v with
  | none => false
  | some s => !(s == "") && !(s == "Any")

/-- The WHERE-clause predicate built by DatabaseService.get_percentiles
(and, identically, get_distribution_data): one equality conjunct per active
filter; sex is skipped (handled by table selection). SQL `col = v` on a
NULL column is false, hence the `some` comparisons on nullable columns.
An active non-numeric year makes Python's `int(value)` raise (a 500
response); the embedding compares against the parsed value. -/
def matchesLambdaWhere (f : LambdaFilters) (r : DbRecord) : Bool :=
  (!(filterActive f.equipment) || r.equipment == f.equipment.getD "")
  && (!(filterActive f.weight_class) || r.weight_class == f.weight_class.getD "")
  && (!(filterActive f.age_div) || r.age_div == f.age_div.getD "")
  && (!(filterActive f.tested) || r.tested == f.tested.getD "")
  && (!(filterActive f.country) || r.country == some (f.country.getD ""))
  && (!(filterActive f.state) || r.state == some (f.state.getD ""))
  && (!(filterActive f.year) || r.year == (f.year.getD "").toInt?)
  && (!(filterActive f.federation) || r.federation == some (f.federation.getD ""))

/-- DatabaseService._get_optimal_table: an absent sex defaults to "M"; an
active state filter picks the per-state view, else an active country filter
the per-country view, else the per-weight-class view; the name is the
lowercased sex value with "ales_by_*" appended. -/
def getOptimalTable (f : LambdaFilters) : String :=
  let sex := f.sex.getD "M"
  if filterActive f.state then sex.toLower ++ "ales_by_state"
  else if filterActive f.country then sex.toLower ++ "ales_by_country"
  else sex.toLower ++ "ales_by_weight_class"

/-- The six views of create_views.py as partitions of the lifts table; a
name that is not one of them (e.g. built from a nonstandard sex value)
selects nothing, where the real database would error. -/
def viewRecords (db : List DbRecord) (name : String) : List DbRecord :=
  if name == "males_by_weight_class" then db.filter (fun r => r.sex == "M")
  else if name == "females_by_weight_class" then db.filter (fun r => r.sex == "F")
  else if name == "males_by_country" then
    db.filter (fun r => r.sex == "M" && r.country.isSome)
  else if name == "females_by_country" then
    db.filter (fun r => r.sex == "F" && r.country.isSome)
  else if name == "males_by_state" then
    db.filter (fun r => r.sex == "M" && r.state.isSome)
  else if name == "females_by_state" then
    db.filter (fun r => r.sex == "F" && r.state.isSome)
  else []

/-- The rows the percentile/distribution query scans: the selected view
restricted by the WHERE clause. -/
def lambdaCohort (db : List DbRecord) (f : LambdaFilters) : List DbRecord :=
  (viewRecords db (getOptimalTable f)).filter (matchesLambdaWhere f)

/-- The `squat_kg > 0 AND bench_kg > 0 AND deadlift_kg > 0 AND total_kg > 0`
condition both query endpoints append to the WHERE clause. -/
def allFourPositive (r : DbRecord) : Bool :=
  decide (0 < r.squat_kg) && decide (0 < r.bench_kg)
    && decide (0 < r.deadlift_kg) && decide (0 < r.total_kg)

/-- The percentile payload of the API: four 99-element curves plus the
qualifying sample size. -/
structure PercentileResult where
  squat : List Rat
  bench : List Rat
  deadlift : List Rat
  total : List Rat
  sample_size : Nat

/-- DatabaseService.get_percentiles: fetch the cohort rows with all four
lifts positive; fewer than 10 yields the "Insufficient data" error
(none); otherwise all four curves over the fetched rows. -/
def lambdaGetPercentiles (db : List DbRecord) (f : LambdaFilters) :
    Option PercentileResult :=
  let results := (lambdaCohort db f).filter allFourPositive
  if results.length < 10 then none
  else some {
    squat := percentiles1to99 (results.map (fun r => r.squat_kg))
    bench := percentiles1to99 (results.map (fun r => r.bench_kg))
    deadlift := percentiles1to99 (results.map (fun r => r.deadlift_kg))
    total := percentiles1to99 (results.map (fun r => r.total_kg))
    sample_size := results.length }

/-! ## Batch percentile generator
(data_processor.py generate_percentiles / _calculate_percentiles; the
terraform lambda duplicates both verbatim) -/

/-- The 5-way equality filter of generate_percentiles for one combination. -/
def batchCohort (data : List DbRecord)
    (sex equipment weightClass ageDiv tested : String) : List DbRecord :=
  data.filter (fun r =>
    r.sex == sex && r.equipment == equipment && r.weight_class == weightClass
      && r.age_div == ageDiv && r.tested == tested)

/-- _calculate_percentiles: per lift, keep only the positive values and
emit the 99-percentile curve only when at least 10 remain; a lift below the
per-lift gate is simply absent from the output dict. -/
def calculatePercentiles (data : List DbRecord) : List (String × List Rat) :=
  [("squat", data.map (fun r => r.squat_kg)),
   ("bench", data.map (fun r => r.bench_kg)),
   ("deadlift", data.map (fun r => r.deadlift_kg)),
   ("total", data.map (fun r => r.total_kg))].filterMap
    (fun p =>
      let liftData := p.2.filter (fun v => decide (0 < v))
      if 10 ≤ liftData.length then some (p.1, percentiles1to99 liftData)
      else none)

/-- One entry of the precomputed percentile JSON. -/
structure BatchEntry where
  percentiles : List (String × List Rat)
  sample_size : Nat

/-- generate_percentiles, body for one filter combination: the gate is the
raw cohort size (`len(filtered_data) >= 10`, no lift-positivity
requirement); below 10 no entry is written. -/
def generatePercentilesEntry (cohort : List DbRecord) : Option BatchEntry :=
  if 10 ≤ cohort.length then
    some { percentiles := calculatePercentiles cohort
           sample_size := cohort.length }
  else none

/-! ## FastAPI server (src/api/main.py) -/

/-- The pydantic FilterOptions model: sex, equipment and weightClass are
required; the rest default to their sentinel. -/
structure MainFilters where
  sex : String
  equipment : String
  weightClass : String
  ageDiv : String := "All"
  tested : String := "Any"
  country : String := "All"
  state : String := "All"
  federation : String := "All"
  year : String := "All"
  meetName : String := "All"

/-- build_where_clause as a row predicate: sex, equipment and weight class
always constrain; each remaining dimension is skipped exactly when its
filter equals its sentinel ("Any" for tested, "All" for the others). -/
def matchesMain (f : MainFilters) (r : DbRecord) : Bool :=
  r.sex == f.sex && r.equipment == f.equipment
  && r.weight_class == f.weightClass
  && (f.ageDiv == "All" || r.age_div == f.ageDiv)
  && (f.tested == "Any" || r.tested == f.tested)
  && (f.country == "All" || r.country == some f.country)
  && (f.state == "All" || r.state == some f.state)
  && (f.federation == "All" || r.federation == some f.federation)
  && (f.year == "All" || r.year == f.year.toInt?)
  && (f.meetName == "All" || r.meet_name == some f.meetName)

/-- Round to the nearest integer, ties to even (Python's round). -/
def roundHalfEven (q : Rat) : Int :=
  if q - (⌊q⌋ : Rat) = 1/2 then (if ⌊q⌋ % 2 = 0 then ⌊q⌋ else ⌊q⌋ + 1)
  else round q

/-- Python round(x, 1): one decimal place, ties to even. -/
def pyRound1 (q : Rat) : Rat := (roundHalfEven (q * 10) : Rat) / 10

/-- main.py get_percentiles, one lift: over the rows matching the WHERE
clause, count the values of the lift column that are positive
(total_count) and those additionally strictly below the user's value
(below_count); a zero total_count yields 0.0, else
round(below/total*100, 1). `cohortValues` is the lift column over the rows
matching the WHERE clause. -/
def computeRankPercentile (cohortValues : List Rat) (userValue : Rat) : Rat :=
  let qualifying := cohortValues.filter (fun v => decide (0 < v))
  if qualifying.length = 0 then 0
  else
    pyRound1
      (((qualifying.filter (fun v => decide (v < userValue))).length : Rat)
        / (qualifying.length : Rat) * 100)

/-! ## Distribution engine (numpy histogram model) -/

/-- Fold of min over a nonempty list (np.min); 0 on the empty list, which
the callers' sample-size gate rules out. -/
def listMin : List Rat → Rat
  | [] => 0
  | [x] => x
  | x :: y :: t => min x (listMin (y :: t))

/-- Fold of max over a nonempty list (np.max). -/
def listMax : List Rat → Rat
  | [] => 0
  | [x] => x
  | x :: y :: t => max x (listMax (y :: t))

/-- np.histogram outer edges: the data range [min, max], widened by one
half on each side when all values coincide (numpy's degenerate-range
rule). -/
def histRange (data : List Rat) : Rat × Rat :=
  let lo := listMin data
  let hi := listMax data
  if lo = hi then (lo - 1/2, hi + 1/2) else (lo, hi)

/-- The b+1 equal-width bin edges over [lo, hi]. -/
def binEdges (lo hi : Rat) (b : Nat) : List Rat :=
  (List.range (b + 1)).map (fun i : Nat => lo + (i : Rat) * (hi - lo) / (b : Rat))

/-- Membership of a value in bin i: half-open [edge i, edge (i+1)) except
the last bin, which also contains its right edge (numpy's rule). -/
def inBin (lo hi : Rat) (b : Nat) (i : Nat) (v : Rat) : Bool :=
  let left := lo + (i : Rat) * (hi - lo) / (b : Rat)
  let right := lo + ((i : Rat) + 1) * (hi - lo) / (b : Rat)
  if i = b - 1 then decide (left ≤ v) && decide (v ≤ right)
  else decide (left ≤ v) && decide (v < right)

/-- The b raw bin counts of np.histogram(data, bins=b). -/
def binCounts (data : List Rat) (b : Nat) : List Nat :=
  let lohi := histRange data
  (List.range b).map (fun i => data.countP (inBin lohi.1 lohi.2 b i))

/-- One lift's distribution payload in get_distribution_data. -/
structure LiftDistribution where
  bins : List Rat
  counts : List Rat
  total_samples : Nat

/-- One lift's histogram in get_distribution_data: np.histogram counts
normalized by the sample count; bin centers are midpoints of consecutive
edges. -/
def liftDistribution (data : List Rat) (b : Nat) : LiftDistribution :=
  let lohi := histRange data
  let edges := binEdges lohi.1 lohi.2 b
  { bins := (List.range b).map
      (fun i => (edges.getD i 0 + edges.getD (i + 1) 0) / 2)
    counts := (binCounts data b).map (fun c : Nat => (c : Rat) / (data.length : Rat))
    total_samples := data.length }

/-- get_distribution_data: the same cohort and four-positive gate as the
percentile endpoint, then a per-lift histogram over the qualifying rows. -/
def lambdaGetDistribution (db : List DbRecord) (f : LambdaFilters) (b : Nat) :
    Option (List (String × LiftDistribution)) :=
  let results := (lambdaCohort db f).filter allFourPositive
  if results.length < 10 then none
  else some
    [("squat", liftDistribution (results.map (fun r => r.squat_kg)) b),
     ("bench", liftDistribution (results.map (fun r => r.bench_kg)) b),
     ("deadlift", liftDistribution (results.map (fun r => r.deadlift_kg)) b),
     ("total", liftDistribution (results.map (fun r => r.total_kg)) b)]

/-! ## Shared concrete records for witnesses and counterexamples -/

/-- A raw record that passes every cleaning filter but carries the
unmapped tested value "Maybe". -/
def rawMaybe : RawRecord :=
  { sex := some "M", equipment := some "Raw", bodyweightKg := some 80,
    squatKg := some 150, benchKg := some 100, deadliftKg := some 200,
    totalKg := some 450, tested := some "Maybe", age := some 25,
    date := some "2024-01-15" }

/-! ## Claim C9 -/

/-- C9 counterexample: a record with the source tested value "Maybe"
(truthy in Python, but not a key of the map dict) survives cleaning, yet
its tested field is the pandas NaN (none) — not "Untested", and outside
{Tested, Untested}. -/
theorem claim9_counterexample :
    (cleanRecord rawMaybe).isSome = true ∧
    Option.bind (cleanRecord rawMaybe) (fun c => c.tested) = none ∧
    testedNorm (some "Maybe") ≠ some "Untested" ∧
    testedNorm (some "Maybe") ≠ some "Tested" := by
  refine ⟨?_, ?_, ?_, ?_⟩ <;> with_unfolding_all decide

/-- C9 (amended): the cleaned tested field is "Tested" exactly when the
source string is "Yes", and "Untested" exactly when the source is missing
or "No"; any other source value is mapped to a missing value by pandas
`map`, not to "Untested". -/
theorem claim9_tested_normalization (t : Option String) :
    (testedNorm t = some "Tested" ↔ t = some "Yes") ∧
    (testedNorm t = some "Untested" ↔ (t = none ∨ t = some "No")) ∧
    (testedNorm t = none ↔ ∃ s, t = some s ∧ s ≠ "Yes" ∧ s ≠ "No") := by
  rcases t with _ | s
  · refine ⟨?_, ?_, ?_⟩ <;> simp [testedNorm]
  · by_cases hy : s = "Yes"
    · subst hy
      refine ⟨?_, ?_, ?_⟩ <;> simp [testedNorm]
    · by_cases hn : s = "No"
      · subst hn
        refine ⟨?_, ?_, ?_⟩ <;> simp [testedNorm]
      · refine ⟨?_, ?_, ?_⟩ <;> simp [testedNorm, hy, hn]

/-! ## Claim C5 -/

/-- C5 counterexample: at age 15 the disjoint-partition rule answers
"Sub-Junior" while the ordered-table rule answers "Open". -/
theorem claim5_counterexample :
    getAgeDivision (some 15) ≠ getAgeDivisionTf (some 15) := by
  with_unfolding_all decide

/-- The ordered-table variant returns "Open" for every age: its first row
("Open", [0, 999]) wins whenever any row could match, and the fallback is
also "Open". -/
theorem getAgeDivisionTf_eq_open (a : Option Rat) : getAgeDivisionTf a = "Open" := by
  rcases a with _ | x
  · rfl
  · by_cases h0 : (0 : ℚ) ≤ x ∧ x ≤ 999
    · show (match AGE_DIVISIONS.find? _ with
            | some d => d.1
            | none => "Open") = "Open"
      rw [show AGE_DIVISIONS.find?
            (fun d => decide (d.2.1 ≤ x) && decide (x ≤ d.2.2)) =
          some ("Open", 0, 999) from
        List.find?_cons_of_pos _ (by simp [h0.1, h0.2])]
    · show (match AGE_DIVISIONS.find? _ with
            | some d => d.1
            | none => "Open") = "Open"
      rw [show AGE_DIVISIONS.find?
            (fun d => decide (d.2.1 ≤ x) && decide (x ≤ d.2.2)) = none from
        List.find?_eq_none.mpr ?_]
      intro d hd
      rcases not_and_or.mp h0 with hlt | hgt
      · push_neg at hlt
        fin_cases hd <;> simp <;> intro h <;> linarith
      · push_neg at hgt
        fin_cases hd <;> simp <;> intro h <;> linarith

/-- C5 (amended): the two age-division rules do not agree everywhere; the
ordered-table variant returns "Open" for every age, so they agree exactly
when the age is missing or the disjoint rule itself answers "Open",
i.e. on ages in [24, 39]. -/
theorem claim5_age_division_divergence (a : Option Rat) :
    getAgeDivisionTf a = "Open" ∧
    (getAgeDivision a = getAgeDivisionTf a ↔
      a = none ∨ ∃ x, a = some x ∧ 24 ≤ x ∧ x ≤ 39) := by
  refine ⟨getAgeDivisionTf_eq_open a, ?_⟩
  rw [getAgeDivisionTf_eq_open a]
  rcases a with _ | x
  · simp [getAgeDivision]
  · simp only [Option.some.injEq, reduceCtorEq, false_or]
    show (if x < 14 then "Youth"
          else if 14 ≤ x ∧ x ≤ 18 then "Sub-Junior"
          else if 19 ≤ x ∧ x ≤ 23 then "Junior"
          else if 24 ≤ x ∧ x ≤ 39 then "Open"
          else if 40 ≤ x ∧ x ≤ 49 then "Masters 1"
          else if 50 ≤ x ∧ x ≤ 59 then "Masters 2"
          else if 60 ≤ x ∧ x ≤ 69 then "Masters 3"
          else "Masters 4") = "Open" ↔ ∃ y, x = y ∧ 24 ≤ y ∧ y ≤ 39
    split_ifs with h1 h2 h3 h4 h5 h6 h7
    · exact ⟨fun h => absurd h (by decide),
        fun ⟨y, hy, h24, _⟩ => absurd (hy ▸ h24) (by intro h; linarith)⟩
    · exact ⟨fun h => absurd h (by decide),
        fun ⟨y, hy, h24, _⟩ => absurd (hy ▸ h24) (by intro h; linarith [h2.2])⟩
    · exact ⟨fun h => absurd h (by decide),
        fun ⟨y, hy, h24, _⟩ => absurd (hy ▸ h24) (by intro h; linarith [h3.2])⟩
    · exact ⟨fun _ => ⟨x, rfl, h4.1, h4.2⟩, fun _ => rfl⟩
    · exact ⟨fun h => absurd h (by decide),
        fun ⟨y, hy, h24, h39⟩ => absurd ⟨hy ▸ h24, hy ▸ h39⟩ h4⟩
    · exact ⟨fun h => absurd h (by decide),
        fun ⟨y, hy, h24, h39⟩ => absurd ⟨hy ▸ h24, hy ▸ h39⟩ h4⟩
    · exact ⟨fun h => absurd h (by decide),
        fun ⟨y, hy, h24, h39⟩ => absurd ⟨hy ▸ h24, hy ▸ h39⟩ h4⟩
    · exact ⟨fun h => absurd h (by decide),
        fun ⟨y, hy, h24, h39⟩ => absurd ⟨hy ▸ h24, hy ▸ h39⟩ h4⟩

/-! ## Claim C10 -/

/-- A lifts-table row used in concrete witnesses. -/
def sampleRow : DbRecord :=
  { sex := "M", equipment := "Raw", bodyweight_kg := 80, weight_class := "83",
    age_div := "Open", squat_kg := 150, bench_kg := 100, deadlift_kg := 200,
    total_kg := 450, tested := "Tested", country := some "USA",
    state := some "CA", federation := some "USAPL", year := some 2024,
    meet_name := some "Test Meet" }

/-- The female twin of sampleRow. -/
def sampleRowF : DbRecord :=
  { sampleRow with sex := "F", weight_class := "72", bodyweight_kg := 65 }

/-- C10: when the filter set has no sex key, table selection substitutes
"M", so the query runs against a male-only view — every row it can scan
has sex "M" — and the WHERE clause never re-checks sex (changing the sex
filter value does not change the WHERE predicate). -/
theorem claim10_default_sex_male (db : List DbRecord) (f : LambdaFilters)
    (hsex : f.sex = none) :
    (getOptimalTable f = "males_by_state" ∨
      getOptimalTable f = "males_by_country" ∨
      getOptimalTable f = "males_by_weight_class") ∧
    (∀ r ∈ lambdaCohort db f, r.sex = "M") ∧
    (∀ (s : Option String) (r : DbRecord),
      matchesLambdaWhere { f with sex := s } r = matchesLambdaWhere f r) := by
  have htbl : getOptimalTable f = "males_by_state" ∨
      getOptimalTable f = "males_by_country" ∨
      getOptimalTable f = "males_by_weight_class" := by
    unfold getOptimalTable
    rw [hsex]
    split_ifs
    · exact Or.inl (by with_unfolding_all rfl)
    · exact Or.inr (Or.inl (by with_unfolding_all rfl))
    · exact Or.inr (Or.inr (by with_unfolding_all rfl))
  refine ⟨htbl, ?_, fun s r => rfl⟩
  intro r hr
  have hview : r ∈ viewRecords db (getOptimalTable f) :=
    (List.mem_filter.mp hr).1
  rcases htbl with h | h | h <;> rw [h] at hview <;>
    simp only [viewRecords, beq_iff_eq, reduceIte, String.reduceEq,
      if_false, if_true] at hview <;>
    [skip; skip; skip] <;>
    · rcases List.mem_filter.mp hview with ⟨_, hs⟩
      simp only [Bool.and_eq_true, beq_iff_eq] at hs
      first
        | exact hs.1
        | exact hs

/-- C10 witness: the empty filter set selects the male weight-class view
and yields only male rows on a concrete two-row database. -/
theorem claim10_default_sex_male_witness :
    ({} : LambdaFilters).sex = none ∧
    (getOptimalTable {} = "males_by_state" ∨
      getOptimalTable {} = "males_by_country" ∨
      getOptimalTable {} = "males_by_weight_class") ∧
    (∀ r ∈ lambdaCohort [sampleRow, sampleRowF] {}, r.sex = "M") :=
  ⟨rfl, (claim10_default_sex_male [sampleRow, sampleRowF] {} rfl).1,
    (claim10_default_sex_male [sampleRow, sampleRowF] {} rfl).2.1⟩

/-! ## Claim C1 -/

/-- Ten identical cleaned rows whose squat is 0 (squat missing in the
source) but whose other lifts and total are positive. -/
def zeroSquatRows : List DbRecord :=
  List.replicate 10 { sampleRow with squat_kg := 0 }

/-- C1 counterexample: a cohort of 10 rows with squat = 0 has zero records
with all four lifts positive, yet the batch generator writes a percentile
entry for it — and the entry is partial: it has no "squat" curve. -/
theorem claim1_counterexample :
    (zeroSquatRows.filter allFourPositive).length = 0 ∧
    (generatePercentilesEntry
      (batchCohort zeroSquatRows "M" "Raw" "83" "Open" "Tested")).isSome = true ∧
    (calculatePercentiles
      (batchCohort zeroSquatRows "M" "Raw" "83" "Open" "Tested")).lookup "squat"
      = none := by
  refine ⟨?_, ?_, ?_⟩ <;> with_unfolding_all rfl

/-- C1 (amended): the API query path produces a percentile result exactly
when at least 10 cohort rows have all four lifts positive (else the
explicit insufficient-data outcome); the batch precomputation path instead
gates on the raw cohort size — at least 10 rows regardless of lift
positivity — and then includes each lift's curve only when that lift has
at least 10 positive values, so entries missing some curves can be
produced. -/
theorem claim1_sample_size_gates (db : List DbRecord) (f : LambdaFilters)
    (cohort : List DbRecord) :
    ((lambdaGetPercentiles db f).isSome ↔
      10 ≤ ((lambdaCohort db f).filter allFourPositive).length) ∧
    ((generatePercentilesEntry cohort).isSome ↔ 10 ≤ cohort.length) ∧
    (((calculatePercentiles cohort).lookup "squat").isSome ↔
      10 ≤ ((cohort.map (fun r => r.squat_kg)).filter
        (fun v => decide (0 < v))).length) ∧
    (((calculatePercentiles cohort).lookup "bench").isSome ↔
      10 ≤ ((cohort.map (fun r => r.bench_kg)).filter
        (fun v => decide (0 < v))).length) ∧
    (((calculatePercentiles cohort).lookup "deadlift").isSome ↔
      10 ≤ ((cohort.map (fun r => r.deadlift_kg)).filter
        (fun v => decide (0 < v))).length) ∧
    (((calculatePercentiles cohort).lookup "total").isSome ↔
      10 ≤ ((cohort.map (fun r => r.total_kg)).filter
        (fun v => decide (0 < v))).length) := by
  refine ⟨?_, ?_, ?_⟩
  · by_cases h : ((lambdaCohort db f).filter allFourPositive).length < 10
    · simp only [lambdaGetPercentiles, if_pos h, Option.isSome_none,
        Bool.false_eq_true, false_iff]
      omega
    · simp only [lambdaGetPercentiles, if_neg h, Option.isSome_some, true_iff]
      omega
  · by_cases h : 10 ≤ cohort.length
    · simp only [generatePercentilesEntry, if_pos h, Option.isSome_some,
        true_iff]
      exact h
    · simp only [generatePercentilesEntry, if_neg h, Option.isSome_none,
        Bool.false_eq_true, false_iff]
      exact h
  · unfold calculatePercentiles
    simp only [List.filterMap_cons, List.filterMap_nil]
    split_ifs <;> simp_all [List.lookup]

/-! ## Claim C8 -/

/-- C8 counterexample: the sentinel is not wildcard everywhere. In the
lambda path a filter value of "All" passes the `value != 'Any'` test and
becomes a literal equality constraint, so equipment = "All" excludes a
Raw row that the absent filter admits; in the FastAPI path the tested
sentinel is "Any", so tested = "All" likewise becomes a literal equality
constraint. -/
theorem claim8_counterexample :
    matchesLambdaWhere { equipment := some "All" } sampleRow = false ∧
    matchesLambdaWhere { equipment := none } sampleRow = true ∧
    lambdaCohort [sampleRow] { equipment := some "All" } = [] ∧
    lambdaCohort [sampleRow] { equipment := none } = [sampleRow] ∧
    matchesMain { sex := "M", equipment := "Raw", weightClass := "83",
                  tested := "All" } sampleRow = false ∧
    matchesMain { sex := "M", equipment := "Raw", weightClass := "83",
                  tested := "Any" } sampleRow = true := by
  refine ⟨?_, ?_, ?_, ?_, ?_, ?_⟩ <;> with_unfolding_all rfl

/-- C8 (amended): in the lambda path an absent, empty or "Any" filter
value imposes no constraint on any WHERE dimension (and an "Any" state or
country does not change table selection), but "All" is treated as a
literal equality value; in the FastAPI path the wildcard sentinel is
"All" for ageDiv, country, state, federation, year and meetName and "Any"
for tested, while sex, equipment and weight class always constrain. -/
theorem claim8_sentinel_semantics (db : List DbRecord) (f : LambdaFilters)
    (g : MainFilters) (r : DbRecord) (v : String) (co st fe mn : Option String)
    (yr : Option Int) :
    (lambdaCohort db { f with equipment := some "Any" } =
      lambdaCohort db { f with equipment := none }) ∧
    (lambdaCohort db { f with weight_class := some "Any" } =
      lambdaCohort db { f with weight_class := none }) ∧
    (lambdaCohort db { f with age_div := some "Any" } =
      lambdaCohort db { f with age_div := none }) ∧
    (lambdaCohort db { f with tested := some "Any" } =
      lambdaCohort db { f with tested := none }) ∧
    (lambdaCohort db { f with country := some "Any" } =
      lambdaCohort db { f with country := none }) ∧
    (lambdaCohort db { f with state := some "Any" } =
      lambdaCohort db { f with state := none }) ∧
    (lambdaCohort db { f with year := some "Any" } =
      lambdaCohort db { f with year := none }) ∧
    (lambdaCohort db { f with federation := some "Any" } =
      lambdaCohort db { f with federation := none }) ∧
    (lambdaCohort db { f with equipment := some "" } =
      lambdaCohort db { f with equipment := none }) ∧
    (matchesMain { g with ageDiv := "All" } r =
      matchesMain { g with ageDiv := "All" } { r with age_div := v }) ∧
    (matchesMain { g with tested := "Any" } r =
      matchesMain { g with tested := "Any" } { r with tested := v }) ∧
    (matchesMain { g with country := "All" } r =
      matchesMain { g with country := "All" } { r with country := co }) ∧
    (matchesMain { g with state := "All" } r =
      matchesMain { g with state := "All" } { r with state := st }) ∧
    (matchesMain { g with federation := "All" } r =
      matchesMain { g with federation := "All" } { r with federation := fe }) ∧
    (matchesMain { g with year := "All" } r =
      matchesMain { g with year := "All" } { r with year := yr }) ∧
    (matchesMain { g with meetName := "All" } r =
      matchesMain { g with meetName := "All" } { r with meet_name := mn }) := by
  refine ⟨?_, ?_, ?_, ?_, ?_, ?_, ?_, ?_, ?_, ?_, ?_, ?_, ?_, ?_, ?_, ?_⟩ <;>
    with_unfolding_all rfl

/-! ## Claim C6 -/

/-- C6: the rank percentile is the number of qualifying values (positive
for the lift) strictly below the user value, divided by the qualifying
count, times 100, rounded to one decimal; it is 0.0 when no qualifying
value exists; consequently a user value strictly above every qualifying
value scores 100.0 and one strictly below every qualifying value scores
0.0. -/
theorem claim6_rank_percentile (cohort : List Rat) (u : Rat) :
    (computeRankPercentile cohort u =
      if (cohort.filter (fun v => decide (0 < v))).length = 0 then 0
      else pyRound1
        ((cohort.countP (fun v => decide (0 < v) && decide (v < u)) : Rat)
          / (cohort.countP (fun v => decide (0 < v)) : Rat) * 100)) ∧
    ((cohort.filter (fun v => decide (0 < v))) = [] →
      computeRankPercentile cohort u = 0) ∧
    ((cohort.filter (fun v => decide (0 < v))) ≠ [] →
      (∀ v ∈ cohort.filter (fun v => decide (0 < v)), v < u) →
      computeRankPercentile cohort u = 100) ∧
    ((∀ v ∈ cohort.filter (fun v => decide (0 < v)), u < v) →
      computeRankPercentile cohort u = 0) := by
  have hbelow :
      ((cohort.filter (fun v => decide (0 < v))).filter
        (fun v => decide (v < u))).length =
      cohort.countP (fun v => decide (0 < v) && decide (v < u)) := by
    rw [← List.countP_eq_length_filter, List.countP_filter]
    exact List.countP_congr (fun a _ => by rw [Bool.and_comm])
  have hqual : (cohort.filter (fun v => decide (0 < v))).length =
      cohort.countP (fun v => decide (0 < v)) :=
    (List.countP_eq_length_filter _ _).symm
  refine ⟨?_, ?_, ?_, ?_⟩
  · simp only [computeRankPercentile, hbelow, hqual]
  · intro h
    simp [computeRankPercentile, h]
  · intro hne hall
    have hlen : (cohort.filter (fun v => decide (0 < v))).length ≠ 0 :=
      fun h => hne (List.length_eq_zero.mp h)
    simp only [computeRankPercentile, if_neg hlen]
    rw [List.filter_eq_self.mpr (fun v hv => decide_eq_true (hall v hv))]
    have hcast : ((cohort.filter (fun v => decide (0 < v))).length : Rat) ≠ 0 := by
      exact_mod_cast hlen
    rw [div_self hcast, one_mul]
    with_unfolding_all rfl
  · intro hall
    have hnil : (cohort.filter (fun v => decide (0 < v))).filter
        (fun v => decide (v < u)) = [] := by
      rw [List.filter_eq_nil_iff]
      intro v hv
      simp only [decide_eq_true_eq, not_lt]
      exact le_of_lt (hall v hv)
    by_cases h : (cohort.filter (fun v => decide (0 < v))).length = 0
    · simp only [computeRankPercentile, if_pos h]
    · simp only [computeRankPercentile, if_neg h, hnil, List.length_nil,
        Nat.cast_zero, zero_div, zero_mul]
      with_unfolding_all rfl

/-- C6 witness: on the cohort [50, 60], a user value of 70 (above all)
scores 100.0 and a user value of 40 (below all) scores 0.0. -/
theorem claim6_rank_percentile_witness :
    ([50, 60] : List Rat).filter (fun v => decide (0 < v)) ≠ [] ∧
    computeRankPercentile [50, 60] 70 = 100 ∧
    computeRankPercentile [50, 60] 40 = 0 :=
  ⟨by with_unfolding_all decide,
    (claim6_rank_percentile [50, 60] 70).2.2.1
      (by with_unfolding_all decide) (by with_unfolding_all decide),
    (claim6_rank_percentile [50, 60] 40).2.2.2
      (by with_unfolding_all decide)⟩

/-! ## Claim C3 -/

/-- A successful association-list lookup returns one of the stored
values. -/
theorem lookup_mem_snd {l : List (String × String)} {k v : String}
    (h : l.lookup k = some v) : v ∈ l.map Prod.snd := by
  induction l with
  | nil => simp [List.lookup] at h
  | cons p t ih =>
    obtain ⟨k1, v1⟩ := p
    cases hk : k == k1 <;> simp only [List.lookup, hk] at h
    · exact List.mem_of_mem_tail (ih h)
    · simp only [Option.some.injEq] at h
      exact h ▸ List.mem_map_of_mem Prod.snd (List.mem_cons_self _ t)

/-- C3: every record surviving the cleaning filter satisfies all
required-field constraints — sex in {M, F}, equipment one of the mapped
labels, bodyweight within [40, 200], total at least 100, at least one of
the three lifts present in the source, and the missing lifts defaulted
to 0. -/
theorem claim3_cleaner_invariants (r : RawRecord) (c : CanonicalRecord)
    (h : cleanRecord r = some c) :
    (c.sex = "M" ∨ c.sex = "F") ∧
    c.equipment ∈ EQUIPMENT_MAP.map Prod.snd ∧
    MIN_BODYWEIGHT_KG ≤ c.bodyweightKg ∧
    c.bodyweightKg ≤ MAX_BODYWEIGHT_KG ∧
    MIN_TOTAL_KG ≤ c.totalKg ∧
    (r.squatKg.isSome = true ∨ r.benchKg.isSome = true ∨
      r.deadliftKg.isSome = true) ∧
    c.squatKg = r.squatKg.getD 0 ∧ c.benchKg = r.benchKg.getD 0 ∧
    c.deadliftKg = r.deadliftKg.getD 0 := by
  unfold cleanRecord at h
  split at h
  case isFalse => exact absurd h (by simp)
  case isTrue hcond =>
    injection h with hc
    subst hc
    simp only [Bool.and_eq_true, Bool.or_eq_true, decide_eq_true_eq,
      beq_iff_eq] at hcond
    obtain ⟨⟨⟨⟨⟨⟨⟨hA, _⟩, hC⟩, hD⟩, _⟩, hF⟩, hG⟩, hH⟩ := hcond
    refine ⟨?_, ?_, hC, hD, hF, or_assoc.mp hA, rfl, rfl, rfl⟩
    · show r.sex.getD "" = "M" ∨ r.sex.getD "" = "F"
      rcases hG with hg | hg <;> rw [hg]
      · exact Or.inl rfl
      · exact Or.inr rfl
    · obtain ⟨v, hv⟩ := Option.isSome_iff_exists.mp hH
      show (EQUIPMENT_MAP.lookup (r.equipment.getD "")).getD "" ∈
        EQUIPMENT_MAP.map Prod.snd
      rw [hv]
      exact lookup_mem_snd hv

/-- A raw record with every field valid. -/
def rawValid : RawRecord :=
  { sex := some "M", equipment := some "Raw", bodyweightKg := some 80,
    squatKg := some 150, benchKg := some 100, deadliftKg := some 200,
    totalKg := some 450, tested := some "Yes", age := some 25,
    date := some "2024-01-15" }

/-- The canonical record rawValid cleans to. -/
def validCanon : CanonicalRecord :=
  { sex := "M", equipment := "Raw", bodyweightKg := 80,
    weightClass := "83", ageDiv := "Open", squatKg := 150, benchKg := 100,
    deadliftKg := 200, totalKg := 450, tested := some "Tested",
    year := some 2024 }

/-- C3 witness: a concrete valid raw record cleans to a concrete
canonical record satisfying all the invariants. -/
theorem claim3_cleaner_invariants_witness :
    cleanRecord rawValid = some validCanon ∧
    ((validCanon.sex = "M" ∨ validCanon.sex = "F") ∧
      validCanon.equipment ∈ EQUIPMENT_MAP.map Prod.snd ∧
      MIN_BODYWEIGHT_KG ≤ validCanon.bodyweightKg ∧
      validCanon.bodyweightKg ≤ MAX_BODYWEIGHT_KG ∧
      MIN_TOTAL_KG ≤ validCanon.totalKg ∧
      (rawValid.squatKg.isSome = true ∨ rawValid.benchKg.isSome = true ∨
        rawValid.deadliftKg.isSome = true) ∧
      validCanon.squatKg = rawValid.squatKg.getD 0 ∧
      validCanon.benchKg = rawValid.benchKg.getD 0 ∧
      validCanon.deadliftKg = rawValid.deadliftKg.getD 0) :=
  ⟨by with_unfolding_all rfl,
    claim3_cleaner_invariants rawValid validCanon
      (by with_unfolding_all rfl)⟩

/-! ## Claim C2 -/

/-- C2: the percentile curve has exactly 99 entries, computed over the
sorted cohort (a sorted permutation of the input), and the entry at
index p-1 is the linear-interpolation percentile
v[floor(rank)] + (rank - floor(rank)) * (v[ceil(rank)] - v[floor(rank)])
with rank = p/100*(n-1). -/
theorem claim2_percentile_curve (data : List Rat) (p : Nat)
    (h1 : 1 ≤ p) (h2 : p ≤ 99) :
    (percentiles1to99 data).length = 99 ∧
    List.Sorted (· ≤ ·) (List.insertionSort (· ≤ ·) data) ∧
    (List.insertionSort (· ≤ ·) data).Perm data ∧
    (percentiles1to99 data).getD (p - 1) 0 =
      (let v := List.insertionSort (· ≤ ·) data
       let rank := (p : Rat) / 100 * ((v.length : Rat) - 1)
       v.getD (⌊rank⌋).toNat 0
         + (rank - (⌊rank⌋ : Rat))
           * (v.getD (⌈rank⌉).toNat 0 - v.getD (⌊rank⌋).toNat 0)) := by
  refine ⟨?_, List.sorted_insertionSort _ data,
    List.perm_insertionSort _ data, ?_⟩
  · simp [percentiles1to99]
  · have hlt : p - 1 < 99 := by omega
    unfold percentiles1to99
    rw [List.getD_eq_getElem?_getD, List.getElem?_map,
      List.getElem?_range hlt, Option.map_some', Option.getD_some]
    have hc : ((p - 1 : Nat) : Rat) + 1 = (p : Rat) := by
      rw [Nat.cast_sub h1]
      push_cast
      ring
    rw [hc]
    rfl

/-- C2 witness: on the cohort [3, 1, 2] the 50th percentile (index 49) is
the median 2 of the sorted values [1, 2, 3]. -/
theorem claim2_percentile_curve_witness :
    (percentiles1to99 [3, 1, 2]).length = 99 ∧
    (percentiles1to99 [3, 1, 2]).getD 49 0 = 2 :=
  ⟨(claim2_percentile_curve [3, 1, 2] 50 (by decide) (by decide)).1, by
    show (percentiles1to99 [3, 1, 2]).getD (50 - 1) 0 = 2
    rw [(claim2_percentile_curve [3, 1, 2] 50 (by decide) (by decide)).2.2.2]
    with_unfolding_all rfl⟩


/-- The weight-class table rendered as labels: each threshold as its
decimal string, the 999 sentinel as "<second-to-last>+". -/
def renderedLabels (wcs : List Rat) : List String :=
  wcs.map (fun wc =>
    if wc = 999 then toString (wcs.getD (wcs.length - 2) 0) ++ "+"
    else toString wc)

/-- Index of the weight class selected for a bodyweight: position of the
first threshold at or above it, capped at the last position. -/
def wcRank (wcs : List Rat) (bw : Rat) : Nat :=
  min (wcs.findIdx (fun wc => decide (bw ≤ wc))) (wcs.length - 1)

theorem getWeightClass_M (bw : Rat) :
    getWeightClass bw "M" =
      (renderedLabels WEIGHT_CLASSES_M).getD (wcRank WEIGHT_CLASSES_M bw) "" := by
  rcases le_or_lt bw 59 with h0 | h0
  · have hf : List.find? (fun wc => decide (bw ≤ wc)) ([59, 66, 74, 83, 93, 105, 120, 999] : List Rat) = some 59 := by
      exact List.find?_cons_of_pos _ (decide_eq_true h0)
    have hi : List.findIdx (fun wc => decide (bw ≤ wc)) ([59, 66, 74, 83, 93, 105, 120, 999] : List Rat) = 0 := by
      rw [List.findIdx_cons, decide_eq_true h0, cond_true]
    unfold getWeightClass wcRank
    simp only [WEIGHT_CLASSES_M, reduceIte]
    rw [hf, hi]
    with_unfolding_all rfl
  rcases le_or_lt bw 66 with h1 | h1
  · have hf : List.find? (fun wc => decide (bw ≤ wc)) ([59, 66, 74, 83, 93, 105, 120, 999] : List Rat) = some 66 := by
      rw [List.find?_cons_of_neg _ (by simp only [decide_eq_true_eq, not_le]; linarith)]
      exact List.find?_cons_of_pos _ (decide_eq_true h1)
    have hi : List.findIdx (fun wc => decide (bw ≤ wc)) ([59, 66, 74, 83, 93, 105, 120, 999] : List Rat) = 1 := by
      rw [List.findIdx_cons, decide_eq_false (show ¬ bw ≤ (59 : Rat) by linarith), cond_false]
      rw [List.findIdx_cons, decide_eq_true h1, cond_true]
    unfold getWeightClass wcRank
    simp only [WEIGHT_CLASSES_M, reduceIte]
    rw [hf, hi]
    with_unfolding_all rfl
  rcases le_or_lt bw 74 with h2 | h2
  · have hf : List.find? (fun wc => decide (bw ≤ wc)) ([59, 66, 74, 83, 93, 105, 120, 999] : List Rat) = some 74 := by
      rw [List.find?_cons_of_neg _ (by simp only [decide_eq_true_eq, not_le]; linarith)]
      rw [List.find?_cons_of_neg _ (by simp only [decide_eq_true_eq, not_le]; linarith)]
      exact List.find?_cons_of_pos _ (decide_eq_true h2)
    have hi : List.findIdx (fun wc => decide (bw ≤ wc)) ([59, 66, 74, 83, 93, 105, 120, 999] : List Rat) = 2 := by
      rw [List.findIdx_cons, decide_eq_false (show ¬ bw ≤ (59 : Rat) by linarith), cond_false]
      rw [List.findIdx_cons, decide_eq_false (show ¬ bw ≤ (66 : Rat) by linarith), cond_false]
      rw [List.findIdx_cons, decide_eq_true h2, cond_true]
    unfold getWeightClass wcRank
    simp only [WEIGHT_CLASSES_M, reduceIte]
    rw [hf, hi]
    with_unfolding_all rfl
  rcases le_or_lt bw 83 with h3 | h3
  · have hf : List.find? (fun wc => decide (bw ≤ wc)) ([59, 66, 74, 83, 93, 105, 120, 999] : List Rat) = some 83 := by
      rw [List.find?_cons_of_neg _ (by simp only [decide_eq_true_eq, not_le]; linarith)]
      rw [List.find?_cons_of_neg _ (by simp only [decide_eq_true_eq, not_le]; linarith)]
      rw [List.find?_cons_of_neg _ (by simp only [decide_eq_true_eq, not_le]; linarith)]
      exact List.find?_cons_of_pos _ (decide_eq_true h3)
    have hi : List.findIdx (fun wc => decide (bw ≤ wc)) ([59, 66, 74, 83, 93, 105, 120, 999] : List Rat) = 3 := by
      rw [List.findIdx_cons, decide_eq_false (show ¬ bw ≤ (59 : Rat) by linarith), cond_false]
      rw [List.findIdx_cons, decide_eq_false (show ¬ bw ≤ (66 : Rat) by linarith), cond_false]
      rw [List.findIdx_cons, decide_eq_false (show ¬ bw ≤ (74 : Rat) by linarith), cond_false]
      rw [List.findIdx_cons, decide_eq_true h3, cond_true]
    unfold getWeightClass wcRank
    simp only [WEIGHT_CLASSES_M, reduceIte]
    rw [hf, hi]
    with_unfolding_all rfl
  rcases le_or_lt bw 93 with h4 | h4
  · have hf : List.find? (fun wc => decide (bw ≤ wc)) ([59, 66, 74, 83, 93, 105, 120, 999] : List Rat) = some 93 := by
      rw [List.find?_cons_of_neg _ (by simp only [decide_eq_true_eq, not_le]; linarith)]
      rw [List.find?_cons_of_neg _ (by simp only [decide_eq_true_eq, not_le]; linarith)]
      rw [List.find?_cons_of_neg _ (by simp only [decide_eq_true_eq, not_le]; linarith)]
      rw [List.find?_cons_of_neg _ (by simp only [decide_eq_true_eq, not_le]; linarith)]
      exact List.find?_cons_of_pos _ (decide_eq_true h4)
    have hi : List.findIdx (fun wc => decide (bw ≤ wc)) ([59, 66, 74, 83, 93, 105, 120, 999] : List Rat) = 4 := by
      rw [List.findIdx_cons, decide_eq_false (show ¬ bw ≤ (59 : Rat) by linarith), cond_false]
      rw [List.findIdx_cons, decide_eq_false (show ¬ bw ≤ (66 : Rat) by linarith), cond_false]
      rw [List.findIdx_cons, decide_eq_false (show ¬ bw ≤ (74 : Rat) by linarith), cond_false]
      rw [List.findIdx_cons, decide_eq_false (show ¬ bw ≤ (83 : Rat) by linarith), cond_false]
      rw [List.findIdx_cons, decide_eq_true h4, cond_true]
    unfold getWeightClass wcRank
    simp only [WEIGHT_CLASSES_M, reduceIte]
    rw [hf, hi]
    with_unfolding_all rfl
  rcases le_or_lt bw 105 with h5 | h5
  · have hf : List.find? (fun wc => decide (bw ≤ wc)) ([59, 66, 74, 83, 93, 105, 120, 999] : List Rat) = some 105 := by
      rw [List.find?_cons_of_neg _ (by simp only [decide_eq_true_eq, not_le]; linarith)]
      rw [List.find?_cons_of_neg _ (by simp only [decide_eq_true_eq, not_le]; linarith)]
      rw [List.find?_cons_of_neg _ (by simp only [decide_eq_true_eq, not_le]; linarith)]
      rw [List.find?_cons_of_neg _ (by simp only [decide_eq_true_eq, not_le]; linarith)]
      rw [List.find?_cons_of_neg _ (by simp only [decide_eq_true_eq, not_le]; linarith)]
      exact List.find?_cons_of_pos _ (decide_eq_true h5)
    have hi : List.findIdx (fun wc => decide (bw ≤ wc)) ([59, 66, 74, 83, 93, 105, 120, 999] : List Rat) = 5 := by
      rw [List.findIdx_cons, decide_eq_false (show ¬ bw ≤ (59 : Rat) by linarith), cond_false]
      rw [List.findIdx_cons, decide_eq_false (show ¬ bw ≤ (66 : Rat) by linarith), cond_false]
      rw [List.findIdx_cons, decide_eq_false (show ¬ bw ≤ (74 : Rat) by linarith), cond_false]
      rw [List.findIdx_cons, decide_eq_false (show ¬ bw ≤ (83 : Rat) by linarith), cond_false]
      rw [List.findIdx_cons, decide_eq_false (show ¬ bw ≤ (93 : Rat) by linarith), cond_false]
      rw [List.findIdx_cons, decide_eq_true h5, cond_true]
    unfold getWeightClass wcRank
    simp only [WEIGHT_CLASSES_M, reduceIte]
    rw [hf, hi]
    with_unfolding_all rfl
  rcases le_or_lt bw 120 with h6 | h6
  · have hf : List.find? (fun wc => decide (bw ≤ wc)) ([59, 66, 74, 83, 93, 105, 120, 999] : List Rat) = some 120 := by
      rw [List.find?_cons_of_neg _ (by simp only [decide_eq_true_eq, not_le]; linarith)]
      rw [List.find?_cons_of_neg _ (by simp only [decide_eq_true_eq, not_le]; linarith)]
      rw [List.find?_cons_of_neg _ (by simp only [decide_eq_true_eq, not_le]; linarith)]
      rw [List.find?_cons_of_neg _ (by simp only [decide_eq_true_eq, not_le]; linarith)]
      rw [List.find?_cons_of_neg _ (by simp only [decide_eq_true_eq, not_le]; linarith)]
      rw [List.find?_cons_of_neg _ (by simp only [decide_eq_true_eq, not_le]; linarith)]
      exact List.find?_cons_of_pos _ (decide_eq_true h6)
    have hi : List.findIdx (fun wc => decide (bw ≤ wc)) ([59, 66, 74, 83, 93, 105, 120, 999] : List Rat) = 6 := by
      rw [List.findIdx_cons, decide_eq_false (show ¬ bw ≤ (59 : Rat) by linarith), cond_false]
      rw [List.findIdx_cons, decide_eq_false (show ¬ bw ≤ (66 : Rat) by linarith), cond_false]
      rw [List.findIdx_cons, decide_eq_false (show ¬ bw ≤ (74 : Rat) by linarith), cond_false]
      rw [List.findIdx_cons, decide_eq_false (show ¬ bw ≤ (83 : Rat) by linarith), cond_false]
      rw [List.findIdx_cons, decide_eq_false (show ¬ bw ≤ (93 : Rat) by linarith), cond_false]
      rw [List.findIdx_cons, decide_eq_false (show ¬ bw ≤ (105 : Rat) by linarith), cond_false]
      rw [List.findIdx_cons, decide_eq_true h6, cond_true]
    unfold getWeightClass wcRank
    simp only [WEIGHT_CLASSES_M, reduceIte]
    rw [hf, hi]
    with_unfolding_all rfl
  rcases le_or_lt bw 999 with h7 | h7
  · have hf : List.find? (fun wc => decide (bw ≤ wc)) ([59, 66, 74, 83, 93, 105, 120, 999] : List Rat) = some 999 := by
      rw [List.find?_cons_of_neg _ (by simp only [decide_eq_true_eq, not_le]; linarith)]
      rw [List.find?_cons_of_neg _ (by simp only [decide_eq_true_eq, not_le]; linarith)]
      rw [List.find?_cons_of_neg _ (by simp only [decide_eq_true_eq, not_le]; linarith)]
      rw [List.find?_cons_of_neg _ (by simp only [decide_eq_true_eq, not_le]; linarith)]
      rw [List.find?_cons_of_neg _ (by simp only [decide_eq_true_eq, not_le]; linarith)]
      rw [List.find?_cons_of_neg _ (by simp only [decide_eq_true_eq, not_le]; linarith)]
      rw [List.find?_cons_of_neg _ (by simp only [decide_eq_true_eq, not_le]; linarith)]
      exact List.find?_cons_of_pos _ (decide_eq_true h7)
    have hi : List.findIdx (fun wc => decide (bw ≤ wc)) ([59, 66, 74, 83, 93, 105, 120, 999] : List Rat) = 7 := by
      rw [List.findIdx_cons, decide_eq_false (show ¬ bw ≤ (59 : Rat) by linarith), cond_false]
      rw [List.findIdx_cons, decide_eq_false (show ¬ bw ≤ (66 : Rat) by linarith), cond_false]
      rw [List.findIdx_cons, decide_eq_false (show ¬ bw ≤ (74 : Rat) by linarith), cond_false]
      rw [List.findIdx_cons, decide_eq_false (show ¬ bw ≤ (83 : Rat) by linarith), cond_false]
      rw [List.findIdx_cons, decide_eq_false (show ¬ bw ≤ (93 : Rat) by linarith), cond_false]
      rw [List.findIdx_cons, decide_eq_false (show ¬ bw ≤ (105 : Rat) by linarith), cond_false]
      rw [List.findIdx_cons, decide_eq_false (show ¬ bw ≤ (120 : Rat) by linarith), cond_false]
      rw [List.findIdx_cons, decide_eq_true h7, cond_true]
    unfold getWeightClass wcRank
    simp only [WEIGHT_CLASSES_M, reduceIte]
    rw [hf, hi]
    with_unfolding_all rfl
  have hf : List.find? (fun wc => decide (bw ≤ wc)) ([59, 66, 74, 83, 93, 105, 120, 999] : List Rat) = none := by
    rw [List.find?_eq_none]
    intro x hx
    fin_cases hx <;> simp only [decide_eq_true_eq, not_le] <;> linarith
  have hi : List.findIdx (fun wc => decide (bw ≤ wc)) ([59, 66, 74, 83, 93, 105, 120, 999] : List Rat) = 8 := by
    rw [List.findIdx_cons, decide_eq_false (show ¬ bw ≤ (59 : Rat) by linarith), cond_false]
    rw [List.findIdx_cons, decide_eq_false (show ¬ bw ≤ (66 : Rat) by linarith), cond_false]
    rw [List.findIdx_cons, decide_eq_false (show ¬ bw ≤ (74 : Rat) by linarith), cond_false]
    rw [List.findIdx_cons, decide_eq_false (show ¬ bw ≤ (83 : Rat) by linarith), cond_false]
    rw [List.findIdx_cons, decide_eq_false (show ¬ bw ≤ (93 : Rat) by linarith), cond_false]
    rw [List.findIdx_cons, decide_eq_false (show ¬ bw ≤ (105 : Rat) by linarith), cond_false]
    rw [List.findIdx_cons, decide_eq_false (show ¬ bw ≤ (120 : Rat) by linarith), cond_false]
    rw [List.findIdx_cons, decide_eq_false (show ¬ bw ≤ (999 : Rat) by linarith), cond_false]
    rfl
  unfold getWeightClass wcRank
  simp only [WEIGHT_CLASSES_M, reduceIte]
  rw [hf, hi]
  with_unfolding_all rfl

theorem getWeightClass_F (bw : Rat) :
    getWeightClass bw "F" =
      (renderedLabels WEIGHT_CLASSES_F).getD (wcRank WEIGHT_CLASSES_F bw) "" := by
  rcases le_or_lt bw 47 with h0 | h0
  · have hf : List.find? (fun wc => decide (bw ≤ wc)) ([47, 52, 57, 63, 72, 84, 999] : List Rat) = some 47 := by
      exact List.find?_cons_of_pos _ (decide_eq_true h0)
    have hi : List.findIdx (fun wc => decide (bw ≤ wc)) ([47, 52, 57, 63, 72, 84, 999] : List Rat) = 0 := by
      rw [List.findIdx_cons, decide_eq_true h0, cond_true]
    unfold getWeightClass wcRank
    simp only [WEIGHT_CLASSES_F, String.reduceEq, reduceIte]
    rw [hf, hi]
    with_unfolding_all rfl
  rcases le_or_lt bw 52 with h1 | h1
  · have hf : List.find? (fun wc => decide (bw ≤ wc)) ([47, 52, 57, 63, 72, 84, 999] : List Rat) = some 52 := by
      rw [List.find?_cons_of_neg _ (by simp only [decide_eq_true_eq, not_le]; linarith)]
      exact List.find?_cons_of_pos _ (decide_eq_true h1)
    have hi : List.findIdx (fun wc => decide (bw ≤ wc)) ([47, 52, 57, 63, 72, 84, 999] : List Rat) = 1 := by
      rw [List.findIdx_cons, decide_eq_false (show ¬ bw ≤ (47 : Rat) by linarith), cond_false]
      rw [List.findIdx_cons, decide_eq_true h1, cond_true]
    unfold getWeightClass wcRank
    simp only [WEIGHT_CLASSES_F, String.reduceEq, reduceIte]
    rw [hf, hi]
    with_unfolding_all rfl
  rcases le_or_lt bw 57 with h2 | h2
  · have hf : List.find? (fun wc => decide (bw ≤ wc)) ([47, 52, 57, 63, 72, 84, 999] : List Rat) = some 57 := by
      rw [List.find?_cons_of_neg _ (by simp only [decide_eq_true_eq, not_le]; linarith)]
      rw [List.find?_cons_of_neg _ (by simp only [decide_eq_true_eq, not_le]; linarith)]
      exact List.find?_cons_of_pos _ (decide_eq_true h2)
    have hi : List.findIdx (fun wc => decide (bw ≤ wc)) ([47, 52, 57, 63, 72, 84, 999] : List Rat) = 2 := by
      rw [List.findIdx_cons, decide_eq_false (show ¬ bw ≤ (47 : Rat) by linarith), cond_false]
      rw [List.findIdx_cons, decide_eq_false (show ¬ bw ≤ (52 : Rat) by linarith), cond_false]
      rw [List.findIdx_cons, decide_eq_true h2, cond_true]
    unfold getWeightClass wcRank
    simp only [WEIGHT_CLASSES_F, String.reduceEq, reduceIte]
    rw [hf, hi]
    with_unfolding_all rfl
  rcases le_or_lt bw 63 with h3 | h3
  · have hf : List.find? (fun wc => decide (bw ≤ wc)) ([47, 52, 57, 63, 72, 84, 999] : List Rat) = some 63 := by
      rw [List.find?_cons_of_neg _ (by simp only [decide_eq_true_eq, not_le]; linarith)]
      rw [List.find?_cons_of_neg _ (by simp only [decide_eq_true_eq, not_le]; linarith)]
      rw [List.find?_cons_of_neg _ (by simp only [decide_eq_true_eq, not_le]; linarith)]
      exact List.find?_cons_of_pos _ (decide_eq_true h3)
    have hi : List.findIdx (fun wc => decide (bw ≤ wc)) ([47, 52, 57, 63, 72, 84, 999] : List Rat) = 3 := by
      rw [List.findIdx_cons, decide_eq_false (show ¬ bw ≤ (47 : Rat) by linarith), cond_false]
      rw [List.findIdx_cons, decide_eq_false (show ¬ bw ≤ (52 : Rat) by linarith), cond_false]
      rw [List.findIdx_cons, decide_eq_false (show ¬ bw ≤ (57 : Rat) by linarith), cond_false]
      rw [List.findIdx_cons, decide_eq_true h3, cond_true]
    unfold getWeightClass wcRank
    simp only [WEIGHT_CLASSES_F, String.reduceEq, reduceIte]
    rw [hf, hi]
    with_unfolding_all rfl
  rcases le_or_lt bw 72 with h4 | h4
  · have hf : List.find? (fun wc => decide (bw ≤ wc)) ([47, 52, 57, 63, 72, 84, 999] : List Rat) = some 72 := by
      rw [List.find?_cons_of_neg _ (by simp only [decide_eq_true_eq, not_le]; linarith)]
      rw [List.find?_cons_of_neg _ (by simp only [decide_eq_true_eq, not_le]; linarith)]
      rw [List.find?_cons_of_neg _ (by simp only [decide_eq_true_eq, not_le]; linarith)]
      rw [List.find?_cons_of_neg _ (by simp only [decide_eq_true_eq, not_le]; linarith)]
      exact List.find?_cons_of_pos _ (decide_eq_true h4)
    have hi : List.findIdx (fun wc => decide (bw ≤ wc)) ([47, 52, 57, 63, 72, 84, 999] : List Rat) = 4 := by
      rw [List.findIdx_cons, decide_eq_false (show ¬ bw ≤ (47 : Rat) by linarith), cond_false]
      rw [List.findIdx_cons, decide_eq_false (show ¬ bw ≤ (52 : Rat) by linarith), cond_false]
      rw [List.findIdx_cons, decide_eq_false (show ¬ bw ≤ (57 : Rat) by linarith), cond_false]
      rw [List.findIdx_cons, decide_eq_false (show ¬ bw ≤ (63 : Rat) by linarith), cond_false]
      rw [List.findIdx_cons, decide_eq_true h4, cond_true]
    unfold getWeightClass wcRank
    simp only [WEIGHT_CLASSES_F, String.reduceEq, reduceIte]
    rw [hf, hi]
    with_unfolding_all rfl
  rcases le_or_lt bw 84 with h5 | h5
  · have hf : List.find? (fun wc => decide (bw ≤ wc)) ([47, 52, 57, 63, 72, 84, 999] : List Rat) = some 84 := by
      rw [List.find?_cons_of_neg _ (by simp only [decide_eq_true_eq, not_le]; linarith)]
      rw [List.find?_cons_of_neg _ (by simp only [decide_eq_true_eq, not_le]; linarith)]
      rw [List.find?_cons_of_neg _ (by simp only [decide_eq_true_eq, not_le]; linarith)]
      rw [List.find?_cons_of_neg _ (by simp only [decide_eq_true_eq, not_le]; linarith)]
      rw [List.find?_cons_of_neg _ (by simp only [decide_eq_true_eq, not_le]; linarith)]
      exact List.find?_cons_of_pos _ (decide_eq_true h5)
    have hi : List.findIdx (fun wc => decide (bw ≤ wc)) ([47, 52, 57, 63, 72, 84, 999] : List Rat) = 5 := by
      rw [List.findIdx_cons, decide_eq_false (show ¬ bw ≤ (47 : Rat) by linarith), cond_false]
      rw [List.findIdx_cons, decide_eq_false (show ¬ bw ≤ (52 : Rat) by linarith), cond_false]
      rw [List.findIdx_cons, decide_eq_false (show ¬ bw ≤ (57 : Rat) by linarith), cond_false]
      rw [List.findIdx_cons, decide_eq_false (show ¬ bw ≤ (63 : Rat) by linarith), cond_false]
      rw [List.findIdx_cons, decide_eq_false (show ¬ bw ≤ (72 : Rat) by linarith), cond_false]
      rw [List.findIdx_cons, decide_eq_true h5, cond_true]
    unfold getWeightClass wcRank
    simp only [WEIGHT_CLASSES_F, String.reduceEq, reduceIte]
    rw [hf, hi]
    with_unfolding_all rfl
  rcases le_or_lt bw 999 with h6 | h6
  · have hf : List.find? (fun wc => decide (bw ≤ wc)) ([47, 52, 57, 63, 72, 84, 999] : List Rat) = some 999 := by
      rw [List.find?_cons_of_neg _ (by simp only [decide_eq_true_eq, not_le]; linarith)]
      rw [List.find?_cons_of_neg _ (by simp only [decide_eq_true_eq, not_le]; linarith)]
      rw [List.find?_cons_of_neg _ (by simp only [decide_eq_true_eq, not_le]; linarith)]
      rw [List.find?_cons_of_neg _ (by simp only [decide_eq_true_eq, not_le]; linarith)]
      rw [List.find?_cons_of_neg _ (by simp only [decide_eq_true_eq, not_le]; linarith)]
      rw [List.find?_cons_of_neg _ (by simp only [decide_eq_true_eq, not_le]; linarith)]
      exact List.find?_cons_of_pos _ (decide_eq_true h6)
    have hi : List.findIdx (fun wc => decide (bw ≤ wc)) ([47, 52, 57, 63, 72, 84, 999] : List Rat) = 6 := by
      rw [List.findIdx_cons, decide_eq_false (show ¬ bw ≤ (47 : Rat) by linarith), cond_false]
      rw [List.findIdx_cons, decide_eq_false (show ¬ bw ≤ (52 : Rat) by linarith), cond_false]
      rw [List.findIdx_cons, decide_eq_false (show ¬ bw ≤ (57 : Rat) by linarith), cond_false]
      rw [List.findIdx_cons, decide_eq_false (show ¬ bw ≤ (63 : Rat) by linarith), cond_false]
      rw [List.findIdx_cons, decide_eq_false (show ¬ bw ≤ (72 : Rat) by linarith), cond_false]
      rw [List.findIdx_cons, decide_eq_false (show ¬ bw ≤ (84 : Rat) by linarith), cond_false]
      rw [List.findIdx_cons, decide_eq_true h6, cond_true]
    unfold getWeightClass wcRank
    simp only [WEIGHT_CLASSES_F, String.reduceEq, reduceIte]
    rw [hf, hi]
    with_unfolding_all rfl
  have hf : List.find? (fun wc => decide (bw ≤ wc)) ([47, 52, 57, 63, 72, 84, 999] : List Rat) = none := by
    rw [List.find?_eq_none]
    intro x hx
    fin_cases hx <;> simp only [decide_eq_true_eq, not_le] <;> linarith
  have hi : List.findIdx (fun wc => decide (bw ≤ wc)) ([47, 52, 57, 63, 72, 84, 999] : List Rat) = 7 := by
    rw [List.findIdx_cons, decide_eq_false (show ¬ bw ≤ (47 : Rat) by linarith), cond_false]
    rw [List.findIdx_cons, decide_eq_false (show ¬ bw ≤ (52 : Rat) by linarith), cond_false]
    rw [List.findIdx_cons, decide_eq_false (show ¬ bw ≤ (57 : Rat) by linarith), cond_false]
    rw [List.findIdx_cons, decide_eq_false (show ¬ bw ≤ (63 : Rat) by linarith), cond_false]
    rw [List.findIdx_cons, decide_eq_false (show ¬ bw ≤ (72 : Rat) by linarith), cond_false]
    rw [List.findIdx_cons, decide_eq_false (show ¬ bw ≤ (84 : Rat) by linarith), cond_false]
    rw [List.findIdx_cons, decide_eq_false (show ¬ bw ≤ (999 : Rat) by linarith), cond_false]
    rfl
  unfold getWeightClass wcRank
  simp only [WEIGHT_CLASSES_F, String.reduceEq, reduceIte]
  rw [hf, hi]
  with_unfolding_all rfl


/-- findIdx is antitone in the strength of the predicate: a predicate
implied by another fires no later. -/
theorem findIdx_le_findIdx_of_imp {α : Type} (l : List α) {p q : α → Bool}
    (himp : ∀ x, q x = true → p x = true) : l.findIdx p ≤ l.findIdx q := by
  induction l with
  | nil => simp
  | cons a t ih =>
    rw [List.findIdx_cons, List.findIdx_cons]
    cases hq : q a
    · cases hp : p a
      · simpa using ih
      · simp
    · simp [himp a hq]

/-- A heavier bodyweight selects the same or a later weight class. -/
theorem wcRank_mono (wcs : List Rat) {b1 b2 : Rat} (h : b1 ≤ b2) :
    wcRank wcs b1 ≤ wcRank wcs b2 := by
  unfold wcRank
  refine min_le_min ?_ le_rfl
  exact findIdx_le_findIdx_of_imp _
    (fun x hx => decide_eq_true (le_trans h (of_decide_eq_true hx)))

/-- The male label table has no duplicates: indexing is inverse to
lookup. -/
theorem labelsM_indexOf :
    ∀ i < 8, (renderedLabels WEIGHT_CLASSES_M).indexOf
      ((renderedLabels WEIGHT_CLASSES_M).getD i "") = i := by
  with_unfolding_all decide

/-- The female label table has no duplicates: indexing is inverse to
lookup. -/
theorem labelsF_indexOf :
    ∀ i < 7, (renderedLabels WEIGHT_CLASSES_F).indexOf
      ((renderedLabels WEIGHT_CLASSES_F).getD i "") = i := by
  with_unfolding_all decide

/-- The configured threshold table for a sex, rendered as labels. -/
def weightClassTable (sex : String) : List String :=
  renderedLabels (if sex = "M" then WEIGHT_CLASSES_M else WEIGHT_CLASSES_F)

/-- Position of a label in the rendered table, the class order. -/
def weightClassOrder (sex : String) (label : String) : Nat :=
  (weightClassTable sex).indexOf label

/-- C4: for both sexes and every bodyweight, the weight class label lies
in the configured table (with 999 rendered as "<previous>+"), and the
class is monotonically non-decreasing in bodyweight. -/
theorem claim4_weight_class_monotone (s : String) (b1 b2 : Rat)
    (hs : s = "M" ∨ s = "F") (h12 : b1 ≤ b2) :
    getWeightClass b1 s ∈ weightClassTable s ∧
    weightClassOrder s (getWeightClass b1 s) ≤
      weightClassOrder s (getWeightClass b2 s) := by
  rcases hs with rfl | rfl
  · have hr1 : wcRank WEIGHT_CLASSES_M b1 < 8 := by
      have h7 : wcRank WEIGHT_CLASSES_M b1 ≤ 7 := min_le_right _ _
      omega
    have hr2 : wcRank WEIGHT_CLASSES_M b2 < 8 := by
      have h7 : wcRank WEIGHT_CLASSES_M b2 ≤ 7 := min_le_right _ _
      omega
    have hlen : wcRank WEIGHT_CLASSES_M b1 <
        (renderedLabels WEIGHT_CLASSES_M).length := hr1
    constructor
    · rw [show weightClassTable "M" = renderedLabels WEIGHT_CLASSES_M from rfl,
        getWeightClass_M b1, List.getD_eq_getElem _ _ hlen]
      exact List.getElem_mem _
    · rw [show weightClassOrder "M" = fun label =>
          (renderedLabels WEIGHT_CLASSES_M).indexOf label from rfl]
      simp only [getWeightClass_M b1, getWeightClass_M b2]
      rw [labelsM_indexOf _ hr1, labelsM_indexOf _ hr2]
      exact wcRank_mono _ h12
  · have hr1 : wcRank WEIGHT_CLASSES_F b1 < 7 := by
      have h6 : wcRank WEIGHT_CLASSES_F b1 ≤ 6 := min_le_right _ _
      omega
    have hr2 : wcRank WEIGHT_CLASSES_F b2 < 7 := by
      have h6 : wcRank WEIGHT_CLASSES_F b2 ≤ 6 := min_le_right _ _
      omega
    have hlen : wcRank WEIGHT_CLASSES_F b1 <
        (renderedLabels WEIGHT_CLASSES_F).length := hr1
    constructor
    · rw [show weightClassTable "F" = renderedLabels WEIGHT_CLASSES_F from rfl,
        getWeightClass_F b1, List.getD_eq_getElem _ _ hlen]
      exact List.getElem_mem _
    · rw [show weightClassOrder "F" = fun label =>
          (renderedLabels WEIGHT_CLASSES_F).indexOf label from rfl]
      simp only [getWeightClass_F b1, getWeightClass_F b2]
      rw [labelsF_indexOf _ hr1, labelsF_indexOf _ hr2]
      exact wcRank_mono _ h12

/-- C4 witness: at bodyweights 80 and 100 a male lands in classes "83"
and "105", both in the table and in non-decreasing order. -/
theorem claim4_weight_class_monotone_witness :
    (80 : Rat) ≤ 100 ∧
    getWeightClass 80 "M" ∈ weightClassTable "M" ∧
    weightClassOrder "M" (getWeightClass 80 "M") ≤
      weightClassOrder "M" (getWeightClass 100 "M") :=
  ⟨by with_unfolding_all decide,
    (claim4_weight_class_monotone "M" 80 100 (Or.inl rfl)
      (by with_unfolding_all decide)).1,
    (claim4_weight_class_monotone "M" 80 100 (Or.inl rfl)
      (by with_unfolding_all decide)).2⟩


/-- The minimum of a nonempty list bounds every member from below. -/
theorem listMin_le {l : List Rat} {v : Rat} (h : v ∈ l) : listMin l ≤ v := by
  induction l with
  | nil => cases h
  | cons x t ih =>
    cases t with
    | nil =>
      rcases List.mem_cons.mp h with rfl | h2
      · exact le_refl _
      · cases h2
    | cons y s =>
      rcases List.mem_cons.mp h with rfl | h2
      · exact min_le_left _ _
      · exact le_trans (min_le_right _ _) (ih h2)

/-- The maximum of a nonempty list bounds every member from above. -/
theorem le_listMax {l : List Rat} {v : Rat} (h : v ∈ l) : v ≤ listMax l := by
  induction l with
  | nil => cases h
  | cons x t ih =>
    cases t with
    | nil =>
      rcases List.mem_cons.mp h with rfl | h2
      · exact le_refl _
      · cases h2
    | cons y s =>
      rcases List.mem_cons.mp h with rfl | h2
      · exact le_max_left _ _
      · exact le_trans (ih h2) (le_max_right _ _)

/-- The numpy outer edges strictly bracket a nonempty data list. -/
theorem histRange_spec (data : List Rat) (hd : data ≠ []) :
    (histRange data).1 < (histRange data).2 ∧
    ∀ v ∈ data, (histRange data).1 ≤ v ∧ v ≤ (histRange data).2 := by
  unfold histRange
  by_cases h : listMin data = listMax data
  · rw [if_pos h]
    refine ⟨by simp only; linarith, fun v hv => ⟨?_, ?_⟩⟩
    · simp only
      linarith [listMin_le hv]
    · simp only
      linarith [le_listMax hv]
  · rw [if_neg h]
    have hle : listMin data ≤ listMax data := by
      obtain ⟨x, hx⟩ := List.exists_mem_of_ne_nil data hd
      exact le_trans (listMin_le hx) (le_listMax hx)
    exact ⟨lt_of_le_of_ne hle h, fun v hv => ⟨listMin_le hv, le_listMax hv⟩⟩

/-- Both kinds of bins bound their members from below by the left edge. -/
theorem inBin_lower {lo hi : Rat} {b i : Nat} {v : Rat}
    (h : inBin lo hi b i v = true) :
    lo + (i : Rat) * (hi - lo) / (b : Rat) ≤ v := by
  unfold inBin at h
  split at h <;> simp only [Bool.and_eq_true, decide_eq_true_eq] at h <;>
    exact h.1

/-- A non-final bin bounds its members strictly by the right edge. -/
theorem inBin_upper {lo hi : Rat} {b i : Nat} {v : Rat} (hne : i ≠ b - 1)
    (h : inBin lo hi b i v = true) :
    v < lo + ((i : Rat) + 1) * (hi - lo) / (b : Rat) := by
  unfold inBin at h
  rw [if_neg hne] at h
  simp only [Bool.and_eq_true, decide_eq_true_eq] at h
  exact h.2

/-- No value lies in two distinct bins. -/
theorem inBin_unique {lo hi : Rat} {b : Nat} {v : Rat} (hb : 0 < b)
    (hlh : lo < hi) {i1 i2 : Nat} (h1b : i1 < b) (h2b : i2 < b)
    (m1 : inBin lo hi b i1 v = true) (m2 : inBin lo hi b i2 v = true) :
    i1 = i2 := by
  have hbQ : (0 : Rat) < (b : Rat) := by exact_mod_cast hb
  have key : ∀ j1 j2 : Nat, j1 < j2 → j2 < b →
      inBin lo hi b j1 v = true → inBin lo hi b j2 v = true → False := by
    intro j1 j2 hlt hj2b k1 k2
    have hne : j1 ≠ b - 1 := by omega
    have hup := inBin_upper hne k1
    have hlow := inBin_lower k2
    have hcast : ((j1 : Rat) + 1) ≤ (j2 : Rat) := by
      have h12 : (j1 + 1 : Nat) ≤ j2 := hlt
      exact_mod_cast h12
    have hmul : ((j1 : Rat) + 1) * (hi - lo) / (b : Rat) ≤
        (j2 : Rat) * (hi - lo) / (b : Rat) :=
      (div_le_div_iff_of_pos_right hbQ).mpr
        (mul_le_mul_of_nonneg_right hcast (by linarith))
    linarith
  rcases lt_trichotomy i1 i2 with h | h | h
  · exact absurd (key i1 i2 h h2b m1 m2) not_false
  · exact h
  · exact absurd (key i2 i1 h h1b m2 m1) not_false


/-- Every value within the outer edges lies in exactly one bin. -/
theorem inBin_exists_unique (lo hi : Rat) (b : Nat) (v : Rat) (hb : 0 < b)
    (hlh : lo < hi) (h1 : lo ≤ v) (h2 : v ≤ hi) :
    ∃! i, i < b ∧ inBin lo hi b i v = true := by
  have hbQ : (0 : Rat) < (b : Rat) := by exact_mod_cast hb
  have hwpos : 0 < (hi - lo) / (b : Rat) := div_pos (by linarith) hbQ
  have hj0 : 0 ≤ ⌊(v - lo) / ((hi - lo) / (b : Rat))⌋ :=
    Int.floor_nonneg.mpr (div_nonneg (by linarith) (le_of_lt hwpos))
  have hjle : (⌊(v - lo) / ((hi - lo) / (b : Rat))⌋ : Rat) ≤
      (v - lo) / ((hi - lo) / (b : Rat)) := Int.floor_le _
  have hjlt : (v - lo) / ((hi - lo) / (b : Rat)) <
      (⌊(v - lo) / ((hi - lo) / (b : Rat))⌋ : Rat) + 1 := Int.lt_floor_add_one _
  have hcastj : ((⌊(v - lo) / ((hi - lo) / (b : Rat))⌋.toNat : Nat) : Rat) =
      (⌊(v - lo) / ((hi - lo) / (b : Rat))⌋ : Rat) := by
    exact_mod_cast Int.toNat_of_nonneg hj0
  have hlow : lo + (⌊(v - lo) / ((hi - lo) / (b : Rat))⌋ : Rat) *
      ((hi - lo) / (b : Rat)) ≤ v := by
    have hmul := (le_div_iff₀ hwpos).mp hjle
    linarith
  have hupp : v < lo + ((⌊(v - lo) / ((hi - lo) / (b : Rat))⌋ : Rat) + 1) *
      ((hi - lo) / (b : Rat)) := by
    have hmul := (div_lt_iff₀ hwpos).mp hjlt
    linarith
  have hassoc : ∀ x : Rat, x * (hi - lo) / (b : Rat) =
      x * ((hi - lo) / (b : Rat)) := fun x => mul_div_assoc x _ _
  by_cases hc : ⌊(v - lo) / ((hi - lo) / (b : Rat))⌋.toNat < b - 1
  · refine ⟨⌊(v - lo) / ((hi - lo) / (b : Rat))⌋.toNat, ⟨by omega, ?_⟩, ?_⟩
    · unfold inBin
      rw [if_neg (by omega)]
      simp only [Bool.and_eq_true, decide_eq_true_eq]
      constructor
      · rw [hassoc, hcastj]
        exact hlow
      · rw [hassoc, hcastj]
        exact hupp
    · intro i' hi'
      exact inBin_unique hb hlh hi'.1 (by omega) hi'.2
        (by
          unfold inBin
          rw [if_neg (by omega)]
          simp only [Bool.and_eq_true, decide_eq_true_eq]
          exact ⟨by rw [hassoc, hcastj]; exact hlow,
            by rw [hassoc, hcastj]; exact hupp⟩)
  · refine ⟨b - 1, ⟨by omega, ?_⟩, ?_⟩
    · unfold inBin
      rw [if_pos rfl]
      simp only [Bool.and_eq_true, decide_eq_true_eq]
      have hcastb : ((b - 1 : Nat) : Rat) + 1 = (b : Rat) := by
        have hb1 : (1 : Nat) ≤ b := hb
        push_cast [Nat.cast_sub hb1]
        ring
      constructor
      · have hble : ((b - 1 : Nat) : Rat) ≤
            (⌊(v - lo) / ((hi - lo) / (b : Rat))⌋ : Rat) := by
          rw [← hcastj]
          exact_mod_cast Nat.le_of_not_lt hc
        have hmono : ((b - 1 : Nat) : Rat) * ((hi - lo) / (b : Rat)) ≤
            (⌊(v - lo) / ((hi - lo) / (b : Rat))⌋ : Rat) *
              ((hi - lo) / (b : Rat)) :=
          mul_le_mul_of_nonneg_right hble (le_of_lt hwpos)
        rw [hassoc]
        linarith
      · rw [hassoc, hcastb]
        have hbmul : (b : Rat) * ((hi - lo) / (b : Rat)) = hi - lo := by
          field_simp
        linarith
    · intro i' hi'
      exact inBin_unique hb hlh hi'.1 (by omega) hi'.2
        (by
          unfold inBin
          rw [if_pos rfl]
          simp only [Bool.and_eq_true, decide_eq_true_eq]
          have hcastb : ((b - 1 : Nat) : Rat) + 1 = (b : Rat) := by
            have hb1 : (1 : Nat) ≤ b := hb
            push_cast [Nat.cast_sub hb1]
            ring
          constructor
          · have hble : ((b - 1 : Nat) : Rat) ≤
                (⌊(v - lo) / ((hi - lo) / (b : Rat))⌋ : Rat) := by
              rw [← hcastj]
              exact_mod_cast Nat.le_of_not_lt hc
            have hmono : ((b - 1 : Nat) : Rat) * ((hi - lo) / (b : Rat)) ≤
                (⌊(v - lo) / ((hi - lo) / (b : Rat))⌋ : Rat) *
                  ((hi - lo) / (b : Rat)) :=
              mul_le_mul_of_nonneg_right hble (le_of_lt hwpos)
            rw [hassoc]
            linarith
          · rw [hassoc, hcastb]
            have hbmul : (b : Rat) * ((hi - lo) / (b : Rat)) = hi - lo := by
              field_simp
            linarith)


/-- Sums over List.range agree with sums over Finset.range. -/
theorem range_map_sum {M : Type} [AddCommMonoid M] (b : Nat) (g : Nat → M) :
    ((List.range b).map g).sum = ∑ i in Finset.range b, g i := by
  induction b with
  | zero => simp
  | succ n ih =>
    rw [List.range_succ, List.map_append, List.sum_append,
      Finset.sum_range_succ, ih]
    simp

/-- Dividing each term of a sum of casts by a constant divides the sum. -/
theorem sum_map_cast_div (l : List Nat) (n : Rat) :
    (l.map (fun c : Nat => (c : Rat) / n)).sum = ((l.sum : Nat) : Rat) / n := by
  induction l with
  | nil => simp
  | cons c t ih =>
    simp only [List.map_cons, List.sum_cons, List.sum_cons, ih]
    push_cast
    rw [add_div]

/-- A value inside the outer edges contributes exactly one count across
the bins. -/
theorem sum_indicator_inBin (lo hi : Rat) (b : Nat) (v : Rat) (hb : 0 < b)
    (hlh : lo < hi) (h1 : lo ≤ v) (h2 : v ≤ hi) :
    (∑ i in Finset.range b, if inBin lo hi b i v = true then 1 else 0) = 1 := by
  obtain ⟨i0, ⟨hi0b, hbin⟩, huniq⟩ := inBin_exists_unique lo hi b v hb hlh h1 h2
  rw [Finset.sum_eq_single_of_mem i0 (Finset.mem_range.mpr hi0b)]
  · rw [if_pos hbin]
  · intro j hj hne
    rw [if_neg]
    intro hbj
    exact hne (huniq j ⟨Finset.mem_range.mp hj, hbj⟩)

/-- The raw histogram counts over [lo, hi] partition the data: they sum
to the sample count. -/
theorem counts_sum_aux (lo hi : Rat) (b : Nat) (hb : 0 < b) (hlh : lo < hi)
    (data : List Rat) (hmem : ∀ v ∈ data, lo ≤ v ∧ v ≤ hi) :
    ((List.range b).map (fun i => data.countP (inBin lo hi b i))).sum =
      data.length := by
  induction data with
  | nil => simp
  | cons v t ih =>
    have hv := hmem v (List.mem_cons_self _ _)
    have ht : ∀ x ∈ t, lo ≤ x ∧ x ≤ hi :=
      fun x hx => hmem x (List.mem_cons_of_mem _ hx)
    have iht := ih ht
    rw [range_map_sum] at iht ⊢
    simp only [List.countP_cons]
    rw [Finset.sum_add_distrib, iht,
      sum_indicator_inBin lo hi b v hb hlh hv.1 hv.2, List.length_cons]


/-- Edge i of the equal-width grid, read back from the edge list. -/
theorem binEdges_getD (lo hi : Rat) (b i : Nat) (h : i < b + 1) :
    (binEdges lo hi b).getD i 0 = lo + (i : Rat) * (hi - lo) / (b : Rat) := by
  unfold binEdges
  rw [List.getD_eq_getElem?_getD, List.getElem?_map, List.getElem?_range h,
    Option.map_some', Option.getD_some]

/-- C7 (amended): for a nonempty cohort and positive bin count, the
histogram has exactly bin_count centers, each the midpoint of its bin's
two equal-width edges over the numpy outer range — which is
[min(values), max(values)] whenever the values are not all equal — and
the normalized counts sum to exactly 1. -/
theorem claim7_histogram (vals : List Rat) (b : Nat) (hb : 0 < b)
    (hv : vals ≠ []) :
    (liftDistribution vals b).bins.length = b ∧
    (∀ i, i < b → (liftDistribution vals b).bins.getD i 0 =
      ((histRange vals).1 +
          (i : Rat) * ((histRange vals).2 - (histRange vals).1) / (b : Rat) +
        ((histRange vals).1 +
          ((i : Rat) + 1) * ((histRange vals).2 - (histRange vals).1)
            / (b : Rat))) / 2) ∧
    (listMin vals ≠ listMax vals →
      histRange vals = (listMin vals, listMax vals)) ∧
    (liftDistribution vals b).counts.sum = 1 := by
  obtain ⟨hlh, hmem⟩ := histRange_spec vals hv
  refine ⟨?_, ?_, ?_, ?_⟩
  · simp [liftDistribution]
  · intro i hib
    simp only [liftDistribution]
    rw [List.getD_eq_getElem?_getD, List.getElem?_map,
      List.getElem?_range hib, Option.map_some', Option.getD_some,
      binEdges_getD _ _ _ _ (by omega), binEdges_getD _ _ _ _ (by omega)]
    push_cast
    ring
  · intro hne
    unfold histRange
    rw [if_neg hne]
  · simp only [liftDistribution]
    rw [sum_map_cast_div]
    rw [show (binCounts vals b).sum = vals.length by
      unfold binCounts
      exact counts_sum_aux _ _ b hb hlh vals hmem]
    have hlen : vals.length ≠ 0 := fun h => hv (List.length_eq_zero.mp h)
    have hlenQ : ((vals.length : Nat) : Rat) ≠ 0 := by exact_mod_cast hlen
    exact div_self hlenQ

/-- C7 counterexample: on a qualifying cohort whose values are all equal
(10 records of 250), numpy widens the range to [249.5, 250.5], so with 2
bins the first center is 249.75 — not the midpoint 250 that equal-width
bins spanning [min(values), max(values)] = [250, 250] would give. -/
theorem claim7_counterexample :
    listMin (List.replicate 10 (250 : Rat)) = 250 ∧
    listMax (List.replicate 10 (250 : Rat)) = 250 ∧
    (liftDistribution (List.replicate 10 (250 : Rat)) 2).bins.getD 0 0 =
      999 / 4 ∧
    ((999 : Rat) / 4) ≠ (250 + 250) / 2 := by
  refine ⟨?_, ?_, ?_, ?_⟩ <;> with_unfolding_all decide

/-- C7 witness: a concrete 10-value cohort with 4 bins has 4 centers and
normalized counts summing to 1. -/
theorem claim7_histogram_witness :
    (liftDistribution [10, 20, 30, 40, 50, 60, 70, 80, 90, 100] 4).bins.length
      = 4 ∧
    (liftDistribution [10, 20, 30, 40, 50, 60, 70, 80, 90, 100] 4).counts.sum
      = 1 :=
  ⟨(claim7_histogram [10, 20, 30, 40, 50, 60, 70, 80, 90, 100] 4
      (by decide) (by decide)).1,
    (claim7_histogram [10, 20, 30, 40, 50, 60, 70, 80, 90, 100] 4
      (by decide) (by decide)).2.2.2⟩

end StrengthCheck
